import Mathlib

/-!
Verification of the SQLAlchemy-Flask models-and-queries application
(`src/app.py`) against its natural-language specification.

The database is embedded shallowly: each SQLAlchemy model becomes a
structure, the database state is four tables (lists of rows), dates are
integers (seconds since the Unix epoch, matching SQLite's
`strftime('%s', ...)` view of a datetime), and each query function is
translated into a pure Lean function on the database state.  Randomness
used by the data generator is passed in explicitly as oracle data.
-/

namespace App

/-- A row of the `customer` table (class `Customer`, src/app.py lines 18-27). -/
structure Customer where
  id : Nat
  first_name : String
  last_name : String
  address : String
  city : String
  postcode : String
  email : String
deriving DecidableEq

/-- A row of the `order` table (class `Order`, src/app.py lines 34-42).
Dates are modelled as epoch seconds; nullable columns as `Option`. -/
structure Order where
  id : Nat
  order_date : Int
  shipped_date : Option Int
  delivered_date : Option Int
  coupon_code : Option String
  customer_id : Nat
deriving DecidableEq

/-- A row of the `product` table (class `Product`, src/app.py lines 44-47). -/
structure Product where
  id : Nat
  name : String
  price : Int
deriving DecidableEq

/-- A row of the `order_product` association table (src/app.py lines 29-32). -/
structure OrderProduct where
  order_id : Nat
  product_id : Nat
deriving DecidableEq

/-- The database state: the four tables. -/
structure DB where
  customers : List Customer
  orders : List Order
  products : List Product
  order_product : List OrderProduct
deriving DecidableEq

/-- The empty database (the state before `db.create_all()` has seeded anything). -/
def emptyDB : DB := { customers := [], orders := [], products := [], order_product := [] }

/-- The rows computed by `get_orders_by` (src/app.py line 122):
`Order.query.filter_by(customer_id=customer_id).all()`. -/
def get_orders_by (db : DB) (customer_id : Nat := 1) : List Order :=
  db.orders.filter (fun o => o.customer_id == customer_id)

/-- The rows computed by `get_pending_orders` (src/app.py line 128):
`Order.query.filter(Order.shipped_date.is_(None)).order_by(Order.order_date.desc()).all()`.
`ORDER BY ... DESC` is modelled by sorting with the "later or equal date first"
comparison. -/
def get_pending_orders (db : DB) : List Order :=
  (db.orders.filter (fun o => o.shipped_date.isNone)).mergeSort
    (fun a b => decide (b.order_date ≤ a.order_date))

/-- The number computed by `how_many_customers` (src/app.py line 134):
`Customer.query.count()`. -/
def how_many_customers (db : DB) : Nat :=
  db.customers.length

/-- SQL three-valued comparison `col != 'lit'` on a nullable string column:
`NULL != x` is not true, so a NULL row does not pass the filter. -/
def sqlStrNe : Option String → String → Bool
  | Option.none, _ => false
  | Option.some s, t => s != t

/-- The rows computed by `orders_with_code` (src/app.py line 138):
`Order.query.filter(Order.coupon_code.isnot(None)).filter(Order.coupon_code != 'FREESHIPPING').all()`. -/
def orders_with_code (db : DB) : List Order :=
  (db.orders.filter (fun o => o.coupon_code.isSome)).filter
    (fun o => sqlStrNe o.coupon_code "FREESHIPPING")

/-- SQL `SUM(...)` over the column values of the selected rows: `NULL` (here
`Option.none`) when no row was selected, otherwise the numeric sum. -/
def sqlSum (l : List Int) : Option Int :=
  match l with
  | [] => Option.none
  | _ => Option.some l.sum

/-- The joined rows of the revenue query (src/app.py lines 144-145): every
`order_product` row is inner-joined to its product and its order, kept when
`Order.order_date > datetime.now() - timedelta(days=x_days)`, and projected to
`Product.price`. -/
def revenue_rows (db : DB) (now : Int) (x_days : Int) : List Int :=
  db.order_product.filterMap (fun row =>
    match db.products.find? (fun p => p.id == row.product_id),
          db.orders.find? (fun o => o.id == row.order_id) with
    | Option.some p, Option.some o =>
        if now - x_days * 86400 < o.order_date then Option.some p.price else Option.none
    | _, _ => Option.none)

/-- The scalar computed by `revenue_in_last_x_days` (src/app.py lines 142-146):
`db.session.query(db.func.sum(Product.price)).join(order_product).join(Order).filter(...).scalar()`. -/
def revenue_in_last_x_days (db : DB) (now : Int) (x_days : Int := 30) : Option Int :=
  sqlSum (revenue_rows db now x_days)

/-- Phrased from the specification: the association rows whose order's order
date is strictly after `now - x_days` days. -/
def spec_matching_rows (db : DB) (now : Int) (x_days : Int) : List OrderProduct :=
  db.order_product.filter (fun row =>
    match db.orders.find? (fun o => o.id == row.order_id) with
    | Option.some o => decide (now - x_days * 86400 < o.order_date)
    | Option.none => false)

/-- Phrased from the specification: the sum, over all association rows whose
order's order date is strictly after `now - x_days` days, of the associated
product's price. -/
def spec_revenue_sum (db : DB) (now : Int) (x_days : Int) : Int :=
  ((spec_matching_rows db now x_days).filterMap (fun row =>
    (db.products.find? (fun p => p.id == row.product_id)).map Product.price)).sum

/-- SQL `AVG(...)` over the column values of the selected rows: `NULL` when no
row was selected, otherwise the rational mean. -/
def sqlAvg (l : List Int) : Option ℚ :=
  match l with
  | [] => Option.none
  | _ => Option.some ((l.sum : ℚ) / (l.length : ℚ))

/-- SQLite's `time(v, 'unixepoch')`: interpret `v` as seconds since the Unix
epoch and keep only the embedded time-of-day, as hours, minutes and seconds. -/
def sqliteTime (q : ℚ) : Int × Int × Int :=
  let s : Int := (Int.floor q).emod 86400
  (s / 3600, s % 3600 / 60, s % 60)

/-- The per-order fulfillment durations selected by `average_fulfillment_time`
(src/app.py lines 148-159): orders are filtered by `Order.shipped_date.isnot(None)`
and each contributes `strftime('%s', shipped_date) - strftime('%s', order_date)`. -/
def fulfillment_seconds (db : DB) : List Int :=
  (db.orders.filter (fun o => o.shipped_date.isSome)).filterMap
    (fun o => o.shipped_date.map (fun s => s - o.order_date))

/-- The scalar computed by `average_fulfillment_time` (src/app.py lines 148-159):
`time(avg(strftime('%s', shipped) - strftime('%s', ordered)), 'unixepoch')`
over the shipped orders. -/
def average_fulfillment_time (db : DB) : Option (Int × Int × Int) :=
  (sqlAvg (fulfillment_seconds db)).map sqliteTime

/-- Phrased from the specification: the average, over all orders with a present
shipped date, of (shipped date − order date) in seconds. -/
def spec_average_fulfillment (db : DB) : ℚ :=
  (((db.orders.filter (fun o => o.shipped_date.isSome)).map
      (fun o => (o.shipped_date.getD 0 - o.order_date : Int))).sum : ℚ) /
    ((db.orders.filter (fun o => o.shipped_date.isSome)).length : ℚ)

/-- The per-customer joined price column of the high-spend query as the chain on
src/app.py lines 163-164 reads: `Customer` joined to `Order`, `order_product`
and `Product`, grouped by customer — the group of a customer holds one
`Product.price` per association row of each of their orders. -/
def customer_join_rows (db : DB) (c : Customer) : List Int :=
  (db.orders.filter (fun o => o.customer_id == c.id)).flatMap (fun o =>
    (db.order_product.filter (fun row => row.order_id == o.id)).filterMap (fun row =>
      (db.products.find? (fun p => p.id == row.product_id)).map Product.price))

/-- The rows the query text of `get_customers_who_have_purchased_x_dollars`
(src/app.py lines 161-166) denotes:
`query(Customer).join(Order).join(order_product).join(Product).group_by(Customer).having(sum(price) > amount)`.
A customer forms a group only when at least one joined row exists (inner join),
and the group is kept when its summed price strictly exceeds `amount`.
Note that in the Python source the chain is split over two lines with no line
continuation, so this function body is a `SyntaxError` as written. -/
def get_customers_who_have_purchased_x_dollars (db : DB) (amount : Int := 500) : List Customer :=
  db.customers.filter (fun c =>
    !(customer_join_rows db c).isEmpty && decide (amount < (customer_join_rows db c).sum))

/-- Fake customer fields drawn from the Faker library in `add_customers`
(src/app.py lines 49-60), supplied as oracle data. -/
structure CustomerData where
  first_name : String
  last_name : String
  address : String
  city : String
  postcode : String
  email : String

/-- The `add_customers` step (src/app.py lines 49-60): appends 100 customer
rows built from the faker oracle; ids continue the auto-increment sequence. -/
def add_customers (db : DB) (fake : Nat → CustomerData) : DB :=
  { db with customers := db.customers ++ (List.range 100).map (fun i =>
      { id := db.customers.length + i + 1
        first_name := (fake i).first_name
        last_name := (fake i).last_name
        address := (fake i).address
        city := (fake i).city
        postcode := (fake i).postcode
        email := (fake i).email }) }

/-- Python's `random.choice(l)` driven by an oracle draw `r`: some element of
`l` when `l` is nonempty, failure (`IndexError`) on an empty list. -/
def choice (l : List α) (r : Nat) : Option α :=
  l[r % l.length]?

/-- The random draws one iteration of the `add_orders` loop consumes
(src/app.py lines 65-86), supplied as oracle data.  `ship_pick` is the
weighted coin of `random.choices([None, date], [10, 90])`; `ship_delta` is the
nonnegative offset of `fake.date_time_between(start_date=ordered_date)` from
its start date, and similarly for the delivered pair. -/
structure OrderRand where
  customer_pick : Nat
  order_date : Int
  ship_pick : Bool
  ship_delta : Nat
  deliver_pick : Bool
  deliver_delta : Nat
  coupon_pick : Nat

/-- The four coupon outcomes of `random.choices([None, '50OFF', 'FREESHIPPING',
'BUYONEGETONE'], [80, 5, 5, 5])` (src/app.py line 78). -/
def coupon_options : List (Option String) :=
  [Option.none, Option.some "50OFF", Option.some "FREESHIPPING", Option.some "BUYONEGETONE"]

/-- One iteration of the `add_orders` loop (src/app.py lines 65-88): pick a
random customer, an order date, a shipped date that is absent or at/after the
order date, a delivered date that is absent unless shipped and then at/after
the shipped date, and a coupon code.  Fails when no customer exists. -/
def gen_order (customers : List Customer) (next_id : Nat) (r : OrderRand) : Option Order :=
  (choice customers r.customer_pick).map (fun customer =>
    let ordered_date := r.order_date
    let shipped_date : Option Int :=
      if r.ship_pick then Option.some (ordered_date + (r.ship_delta : Int)) else Option.none
    let delivered_date : Option Int :=
      match shipped_date with
      | Option.some s =>
          if r.deliver_pick then Option.some (s + (r.deliver_delta : Int)) else Option.none
      | Option.none => Option.none
    { id := next_id
      order_date := ordered_date
      shipped_date := shipped_date
      delivered_date := delivered_date
      coupon_code := coupon_options.getD (r.coupon_pick % 4) Option.none
      customer_id := customer.id })

/-- The `add_orders` loop over a list of random draws, threading the
auto-increment id. -/
def gen_orders (customers : List Customer) (next_id : Nat) : List OrderRand → Option (List Order)
  | [] => Option.some []
  | r :: rs =>
    match gen_order customers next_id r, gen_orders customers (next_id + 1) rs with
    | Option.some o, Option.some os => Option.some (o :: os)
    | _, _ => Option.none

/-- The `add_orders` step (src/app.py lines 62-89): the loop body is run once
per element of the list of random draws (`create_random_data` passes the 1000
draws of `for _ in range(1000)`); the batch is appended at commit.
`Option.none` when `random.choice` fails because no customers exist. -/
def add_orders (db : DB) (rs : List OrderRand) : Option DB :=
  match gen_orders db.customers (db.orders.length + 1) rs with
  | Option.some new => Option.some { db with orders := db.orders ++ new }
  | Option.none => Option.none

/-- Python's `random.randint(a, b)` driven by an oracle draw `r`: an integer in
`[a, b]`. -/
def randint (a b : Nat) (r : Nat) : Nat :=
  a + r % (b - a + 1)

/-- The `add_products` step (src/app.py lines 91-98): appends 10 product rows
with faker names and `random.randint(10, 100)` prices. -/
def add_products (db : DB) (fake : Nat → String) (rand : Nat → Nat) : DB :=
  { db with products := db.products ++ (List.range 10).map (fun i =>
      { id := db.products.length + i + 1
        name := fake i
        price := (randint 10 100 (rand i) : Int) }) }

/-- A uniform random permutation of a list driven by an oracle seed, used to
model `random.sample`: repeatedly extract the element at a random index. -/
def shuffle : List α → Nat → List α
  | [], _ => []
  | a :: l, r =>
    (a :: l).get ⟨r % (a :: l).length, Nat.mod_lt _ (Nat.succ_pos _)⟩ ::
      shuffle ((a :: l).eraseIdx (r % (a :: l).length)) (r / (a :: l).length)
termination_by l _ => l.length
decreasing_by
  simp only [List.length_eraseIdx, List.length_cons]
  split
  · omega
  · rename_i h
    exact absurd (Nat.mod_lt _ (Nat.succ_pos _)) h

/-- Python's `random.sample(l, k)` driven by an oracle seed: `k` distinct
positions of `l`, modelled (for `k ≤ l.length`, the only case the program
reaches) as the first `k` entries of a random permutation. -/
def sample (l : List α) (k : Nat) (r : Nat) : List α :=
  (shuffle l r).take k

/-- The association rows produced by the `add_order_products` loop
(src/app.py lines 104-109): order `i` of the list receives
`random.sample(products, random.randint(1, 3))` via `order.products.extend`. -/
def link_rows (orders : List Order) (products : List Product)
    (rand : Nat → Nat × Nat) (i : Nat) : List OrderProduct :=
  match orders with
  | [] => []
  | o :: rest =>
    (sample products (randint 1 3 (rand i).1) (rand i).2).map
        (fun p => { order_id := o.id, product_id := p.id })
      ++ link_rows rest products rand (i + 1)

/-- The `add_order_products` step (src/app.py lines 100-111): every order gets
1-3 sampled products attached through the association table. -/
def add_order_products (db : DB) (rand : Nat → Nat × Nat) : DB :=
  { db with order_product := db.order_product ++ link_rows db.orders db.products rand 0 }

/-- The products associated to the order with id `oid` in the database state. -/
def products_of (db : DB) (oid : Nat) : List Product :=
  (db.order_product.filter (fun row => row.order_id == oid)).filterMap
    (fun row => db.products.find? (fun p => p.id == row.product_id))

/-- All the randomness `create_random_data` consumes, as oracle data. -/
structure SeedRand where
  customer_fake : Nat → CustomerData
  order_rand : Nat → OrderRand
  product_fake : Nat → String
  product_rand : Nat → Nat
  link_rand : Nat → Nat × Nat

/-- The `create_random_data` orchestration (src/app.py lines 113-118):
`db.create_all()` (no row changes), then customers, orders, products and
order-product associations, each step committing before the next. -/
def create_random_data (db : DB) (r : SeedRand) : Option DB :=
  match add_orders (add_customers db r.customer_fake) ((List.range 1000).map r.order_rand) with
  | Option.some db2 =>
      Option.some (add_order_products (add_products db2 r.product_fake r.product_rand) r.link_rand)
  | Option.none => Option.none

/-- A Python value as seen by a caller of the query functions: the functions
print their rows and fall off the end, so the caller receives `None`. -/
inductive PyValue where
  | none
  | int (n : Int)
  | orderList (l : List Order)
deriving DecidableEq

/-- The full behavior of `get_orders_by` (src/app.py lines 120-124): the value
returned to the caller, paired with the lines printed to stdout. -/
def get_orders_by_run (db : DB) (customer_id : Nat := 1) : PyValue × List String :=
  (PyValue.none,
    "Get Orders by Customer" :: (get_orders_by db customer_id).map (fun o => toString o.order_date))

/-- The full behavior of `get_pending_orders` (src/app.py lines 126-130). -/
def get_pending_orders_run (db : DB) : PyValue × List String :=
  (PyValue.none,
    "Pending Orders" :: (get_pending_orders db).map (fun o => toString o.order_date))

/-- The full behavior of `how_many_customers` (src/app.py lines 132-134). -/
def how_many_customers_run (db : DB) : PyValue × List String :=
  (PyValue.none, ["How many customers?", toString (how_many_customers db)])

/-- Customer used in the concrete scenarios below. -/
def aliceC : Customer :=
  { id := 1, first_name := "Alice", last_name := "Smith", address := "1 Main St"
    city := "Leeds", postcode := "LS1", email := "alice" }

/-- Scenario database for the high-spend query: one customer with one order
containing products priced 300 and 250. -/
def spendDB : DB :=
  { customers := [aliceC]
    orders := [{ id := 1, order_date := 0, shipped_date := Option.none,
                 delivered_date := Option.none, coupon_code := Option.none, customer_id := 1 }]
    products := [{ id := 1, name := "Red", price := 300 }, { id := 2, name := "Blue", price := 250 }]
    order_product := [{ order_id := 1, product_id := 1 }, { order_id := 1, product_id := 2 }] }

/-- Scenario database for the revenue query: one order dated "today" (now = 0)
with two attached products priced 10 and 20. -/
def revDB : DB :=
  { customers := [aliceC]
    orders := [{ id := 1, order_date := 0, shipped_date := Option.none,
                 delivered_date := Option.none, coupon_code := Option.none, customer_id := 1 }]
    products := [{ id := 1, name := "Red", price := 10 }, { id := 2, name := "Blue", price := 20 }]
    order_product := [{ order_id := 1, product_id := 1 }, { order_id := 1, product_id := 2 }] }

/-- Scenario database for the fulfillment query: one order shipped 90000
seconds (25 hours) after it was placed. -/
def fulfillDB : DB :=
  { customers := []
    orders := [{ id := 1, order_date := 0, shipped_date := Option.some 90000,
                 delivered_date := Option.none, coupon_code := Option.none, customer_id := 1 }]
    products := [], order_product := [] }

/-- Concrete random draw for one `add_orders` iteration: shipped 5 seconds
after ordering, delivered 7 seconds after shipping, no coupon. -/
def genRand : OrderRand :=
  { customer_pick := 0, order_date := 100, ship_pick := true, ship_delta := 5
    deliver_pick := true, deliver_delta := 7, coupon_pick := 0 }

/-- Database holding just the customer, before order generation. -/
def genDB : DB := { customers := [aliceC], orders := [], products := [], order_product := [] }

/-- The state `add_orders genDB [genRand]` produces. -/
def genDB2 : DB :=
  { customers := [aliceC]
    orders := [{ id := 1, order_date := 100, shipped_date := Option.some 105,
                 delivered_date := Option.some 112, coupon_code := Option.none, customer_id := 1 }]
    products := [], order_product := [] }

/-- Scenario database for `add_order_products`: one order, three products, and
no associations yet. -/
def linkDB : DB :=
  { customers := []
    orders := [{ id := 1, order_date := 0, shipped_date := Option.none,
                 delivered_date := Option.none, coupon_code := Option.none, customer_id := 1 }]
    products := [{ id := 1, name := "Red", price := 10 }, { id := 2, name := "Blue", price := 20 },
                 { id := 3, name := "Green", price := 30 }]
    order_product := [] }

/-- Concrete link randomness: every order draws `k = randint 1 3` from seed 1
(giving 2) and samples with seed 1. -/
def linkRand : Nat → Nat × Nat := fun _ => (1, 1)

/-- Scenario database for the query-return counterexample: one customer and
one order belonging to them. -/
def runDB : DB :=
  { customers := [aliceC]
    orders := [{ id := 1, order_date := 42, shipped_date := Option.none,
                 delivered_date := Option.none, coupon_code := Option.none, customer_id := 1 }]
    products := [], order_product := [] }

end App

namespace App

/-! ## Helper lemmas -/

theorem sqlSum_of_ne_nil (l : List Int) (h : l ≠ []) :
    sqlSum l = Option.some l.sum := by
  cases l with
  | nil => exact absurd rfl h
  | cons a t => rfl

theorem sqlAvg_of_ne_nil (l : List Int) (h : l ≠ []) :
    sqlAvg l = Option.some ((l.sum : ℚ) / (l.length : ℚ)) := by
  cases l with
  | nil => exact absurd rfl h
  | cons a t => rfl

theorem revenue_rows_eq_spec (db : DB) (now x_days : Int) :
    revenue_rows db now x_days =
      (spec_matching_rows db now x_days).filterMap
        (fun row => (db.products.find? (fun p => p.id == row.product_id)).map Product.price) := by
  unfold revenue_rows spec_matching_rows
  generalize db.order_product = l
  induction l with
  | nil => rfl
  | cons row l ih =>
    simp only [List.filterMap_cons, List.filter_cons]
    cases hfo : db.orders.find? (fun o => o.id == row.order_id) with
    | none =>
      cases hfp : db.products.find? (fun p => p.id == row.product_id) with
      | none => simpa [hfo, hfp] using ih
      | some p => simpa [hfo, hfp] using ih
    | some o =>
      cases hfp : db.products.find? (fun p => p.id == row.product_id) with
      | none =>
        by_cases hd : now - x_days * 86400 < o.order_date
        · simpa [hfo, hfp, hd] using ih
        · simpa [hfo, hfp, hd] using ih
      | some p =>
        by_cases hd : now - x_days * 86400 < o.order_date
        · simpa [hfo, hfp, hd] using ih
        · simpa [hfo, hfp, hd] using ih

/-! ## Claim theorems -/

/-- C4: `get_pending_orders` returns exactly the orders whose shipped date is
absent, sorted by order date descending: an order is in the result iff it is a
pending order of the database, and any two adjacent results have
non-increasing order dates. -/
theorem get_pending_orders_correct (db : DB) :
    (∀ o : Order, o ∈ get_pending_orders db ↔ o ∈ db.orders ∧ o.shipped_date = Option.none) ∧
    (get_pending_orders db).Chain' (fun a b => b.order_date ≤ a.order_date) := by
  constructor
  · intro o
    simp [get_pending_orders, List.mem_filter, Option.isNone_iff_eq_none]
  · have hp : (get_pending_orders db).Pairwise
        (fun a b => decide (b.order_date ≤ a.order_date) = true) := by
      apply List.sorted_mergeSort
      · intro a b c hab hbc
        simp only [decide_eq_true_eq] at *
        exact le_trans hbc hab
      · intro a b
        simp only [Bool.or_eq_true, decide_eq_true_eq]
        omega
    exact (hp.imp (fun h => by simpa using h)).chain'

/-- C10: `orders_with_code` returns exactly the orders whose coupon code is
present and different from "FREESHIPPING". -/
theorem orders_with_code_correct (db : DB) (o : Order) :
    o ∈ orders_with_code db ↔
      o ∈ db.orders ∧ o.coupon_code ≠ Option.none ∧
        o.coupon_code ≠ Option.some "FREESHIPPING" := by
  simp only [orders_with_code, List.mem_filter]
  cases h : o.coupon_code with
  | none => simp [sqlStrNe, h]
  | some s => simp [sqlStrNe, h, and_assoc]

/-- C3: when no association row matches the revenue window, the revenue query
yields the storage layer's empty-sum result, the null scalar, not the numeric
zero. -/
theorem revenue_no_match_null (db : DB) (now x_days : Int)
    (h : spec_matching_rows db now x_days = []) :
    revenue_in_last_x_days db now x_days = Option.none ∧
      revenue_in_last_x_days db now x_days ≠ Option.some 0 := by
  have hrows : revenue_rows db now x_days = [] := by
    rw [revenue_rows_eq_spec, h]
    rfl
  constructor
  · simp [revenue_in_last_x_days, hrows, sqlSum]
  · simp [revenue_in_last_x_days, hrows, sqlSum]

/-- Witness for C3 at the empty database. -/
theorem revenue_no_match_null_witness :
    spec_matching_rows emptyDB 0 30 = [] ∧
      (revenue_in_last_x_days emptyDB 0 30 = Option.none ∧
        revenue_in_last_x_days emptyDB 0 30 ≠ Option.some 0) :=
  ⟨rfl, revenue_no_match_null emptyDB 0 30 rfl⟩

/-- C2 counterexample: at the empty database the claim's sum over the (empty)
set of matching association rows is 0, but the revenue query yields the null
scalar, not `some 0`: the claim fails for this database state. -/
theorem revenue_claim_counterexample :
    revenue_in_last_x_days emptyDB 0 1 = Option.none ∧
      spec_revenue_sum emptyDB 0 1 = 0 ∧
      revenue_in_last_x_days emptyDB 0 1 ≠ Option.some (spec_revenue_sum emptyDB 0 1) := by
  refine ⟨rfl, rfl, ?_⟩
  intro h
  exact Option.noConfusion h

/-- C2 (amended): whenever at least one association row survives the joins and
the date filter, the revenue query returns exactly the sum, over all
association rows whose order's order date is strictly after now − n days, of
the associated product's price. -/
theorem revenue_in_last_x_days_eq_spec_sum (db : DB) (now x_days : Int)
    (h : revenue_rows db now x_days ≠ []) :
    revenue_in_last_x_days db now x_days = Option.some (spec_revenue_sum db now x_days) := by
  unfold revenue_in_last_x_days
  rw [sqlSum_of_ne_nil _ h]
  unfold spec_revenue_sum
  rw [← revenue_rows_eq_spec]

/-- Witness for C2 on the claim's scenario: one order dated today with two
attached products priced 10 and 20 gives revenue 30 for a 1-day window. -/
theorem revenue_in_last_x_days_eq_spec_sum_witness :
    revenue_rows revDB 0 1 ≠ [] ∧
      revenue_in_last_x_days revDB 0 1 = Option.some (spec_revenue_sum revDB 0 1) ∧
      spec_revenue_sum revDB 0 1 = 30 :=
  ⟨by decide, revenue_in_last_x_days_eq_spec_sum revDB 0 1 (by decide), by decide⟩

theorem filterMap_shipped_eq_map : ∀ l : List Order,
    (∀ o ∈ l, o.shipped_date.isSome = true) →
    l.filterMap (fun o => o.shipped_date.map (fun s => s - o.order_date)) =
      l.map (fun o => (o.shipped_date.getD 0 - o.order_date : Int))
  | [], _ => rfl
  | o :: l, h => by
    cases hs : o.shipped_date with
    | none =>
      have := h o (by simp)
      rw [hs] at this
      exact absurd this (by simp)
    | some s =>
      simp only [List.filterMap_cons, List.map_cons, hs, Option.map_some', Option.getD_some]
      rw [filterMap_shipped_eq_map l (fun o ho => h o (by simp [ho]))]

/-- C7: `average_fulfillment_time` computes the average, over all orders with a
present shipped date, of (shipped date − order date) in seconds, and formats it
as a time-of-day: the reported hours, minutes and seconds encode the floor of
that average reduced modulo 86400, so the displayed duration always lies below
24 hours even when the average does not. -/
theorem average_fulfillment_time_correct (db : DB)
    (h : db.orders.filter (fun o => o.shipped_date.isSome) ≠ []) :
    ∃ hh mm ss : Int,
      average_fulfillment_time db = Option.some (hh, mm, ss) ∧
      hh * 3600 + mm * 60 + ss = (Int.floor (spec_average_fulfillment db)).emod 86400 ∧
      0 ≤ hh * 3600 + mm * 60 + ss ∧
      hh * 3600 + mm * 60 + ss < 86400 := by
  have hprop : ∀ o ∈ db.orders.filter (fun o => o.shipped_date.isSome),
      o.shipped_date.isSome = true :=
    fun o ho => (List.mem_filter.mp ho).2
  have hmap : fulfillment_seconds db =
      (db.orders.filter (fun o => o.shipped_date.isSome)).map
        (fun o => (o.shipped_date.getD 0 - o.order_date : Int)) := by
    unfold fulfillment_seconds
    exact filterMap_shipped_eq_map _ hprop
  have hne : fulfillment_seconds db ≠ [] := by
    rw [hmap]
    simpa using h
  have havg : sqlAvg (fulfillment_seconds db) = Option.some (spec_average_fulfillment db) := by
    rw [sqlAvg_of_ne_nil _ hne, hmap, List.length_map]
    unfold spec_average_fulfillment
    rfl
  refine ⟨(Int.floor (spec_average_fulfillment db)).emod 86400 / 3600,
          (Int.floor (spec_average_fulfillment db)).emod 86400 % 3600 / 60,
          (Int.floor (spec_average_fulfillment db)).emod 86400 % 60, ?_, ?_, ?_, ?_⟩
  · unfold average_fulfillment_time
    rw [havg]
    rfl
  · have h0 : 0 ≤ (Int.floor (spec_average_fulfillment db)).emod 86400 :=
      Int.emod_nonneg _ (by norm_num)
    omega
  · have h0 : 0 ≤ (Int.floor (spec_average_fulfillment db)).emod 86400 :=
      Int.emod_nonneg _ (by norm_num)
    omega
  · have h0 : 0 ≤ (Int.floor (spec_average_fulfillment db)).emod 86400 :=
      Int.emod_nonneg _ (by norm_num)
    have h1 : (Int.floor (spec_average_fulfillment db)).emod 86400 < 86400 :=
      Int.emod_lt_of_pos _ (by norm_num)
    omega

/-- Witness for C7: a single order shipped 25 hours after it was placed. -/
theorem average_fulfillment_time_correct_witness :
    fulfillDB.orders.filter (fun o => o.shipped_date.isSome) ≠ [] ∧
      ∃ hh mm ss : Int,
        average_fulfillment_time fulfillDB = Option.some (hh, mm, ss) ∧
        hh * 3600 + mm * 60 + ss = (Int.floor (spec_average_fulfillment fulfillDB)).emod 86400 ∧
        0 ≤ hh * 3600 + mm * 60 + ss ∧
        hh * 3600 + mm * 60 + ss < 86400 :=
  ⟨by decide, average_fulfillment_time_correct fulfillDB (by decide)⟩

theorem gen_order_invariant (customers : List Customer) (next_id : Nat) (r : OrderRand)
    (o : Order) (h : gen_order customers next_id r = Option.some o) :
    (∀ d, o.delivered_date = Option.some d → ∃ s, o.shipped_date = Option.some s ∧ s ≤ d) ∧
    (∀ s, o.shipped_date = Option.some s → o.order_date ≤ s) := by
  cases hc : choice customers r.customer_pick with
  | none =>
    rw [gen_order, hc] at h
    exact Option.noConfusion h
  | some c =>
    cases hsp : r.ship_pick with
    | false =>
      simp only [gen_order, hc, hsp, Bool.false_eq_true, if_false, Option.map_some'] at h
      rw [← Option.some_inj.mp h]
      constructor
      · intro d hd
        exact absurd hd (by simp)
      · intro s hs
        exact absurd hs (by simp)
    | true =>
      cases hdp : r.deliver_pick with
      | false =>
        simp only [gen_order, hc, hsp, hdp, Bool.false_eq_true, if_true, if_false,
          Option.map_some'] at h
        rw [← Option.some_inj.mp h]
        constructor
        · intro d hd
          exact absurd hd (by simp)
        · intro s hs
          dsimp only at hs ⊢
          simp only [Option.some_inj] at hs
          omega
      | true =>
        simp only [gen_order, hc, hsp, hdp, if_true, Option.map_some'] at h
        rw [← Option.some_inj.mp h]
        constructor
        · intro d hd
          dsimp only at hd ⊢
          simp only [Option.some_inj] at hd
          refine ⟨r.order_date + (r.ship_delta : Int), rfl, ?_⟩
          omega
        · intro s hs
          dsimp only at hs ⊢
          simp only [Option.some_inj] at hs
          omega

theorem gen_orders_invariant (customers : List Customer) :
    ∀ (rs : List OrderRand) (next_id : Nat) (os : List Order),
      gen_orders customers next_id rs = Option.some os →
      ∀ o ∈ os,
        (∀ d, o.delivered_date = Option.some d →
          ∃ s, o.shipped_date = Option.some s ∧ s ≤ d) ∧
        (∀ s, o.shipped_date = Option.some s → o.order_date ≤ s)
  | [], n, os, h => by
    simp only [gen_orders] at h
    intro o ho
    rw [← Option.some_inj.mp h] at ho
    exact absurd ho (by simp)
  | r :: rs, n, os, h => by
    simp only [gen_orders] at h
    cases hg : gen_order customers n r with
    | none =>
      rw [hg] at h
      exact Option.noConfusion h
    | some o0 =>
      cases hrest : gen_orders customers (n + 1) rs with
      | none =>
        rw [hg, hrest] at h
        exact Option.noConfusion h
      | some os0 =>
        rw [hg, hrest] at h
        intro o ho
        rw [← Option.some_inj.mp h] at ho
        rcases List.mem_cons.mp ho with rfl | hmem
        · exact gen_order_invariant customers n r o hg
        · exact gen_orders_invariant customers rs (n + 1) os0 hrest o hmem

/-- C5: every order produced by `add_orders` satisfies the date invariant: a
present delivered date implies a present shipped date no later than it, and a
present shipped date is no earlier than the order date. -/
theorem add_orders_date_invariant (db : DB) (rs : List OrderRand) (db2 : DB)
    (h : add_orders db rs = Option.some db2) :
    ∃ new : List Order, db2.orders = db.orders ++ new ∧
      ∀ o ∈ new,
        (∀ d, o.delivered_date = Option.some d →
          ∃ s, o.shipped_date = Option.some s ∧ s ≤ d) ∧
        (∀ s, o.shipped_date = Option.some s → o.order_date ≤ s) := by
  unfold add_orders at h
  cases hg : gen_orders db.customers (db.orders.length + 1) rs with
  | none =>
    rw [hg] at h
    exact Option.noConfusion h
  | some new =>
    rw [hg] at h
    exact ⟨new, by rw [← Option.some_inj.mp h],
      gen_orders_invariant db.customers rs (db.orders.length + 1) new hg⟩

/-- Witness for C5: one generated order, shipped 5 seconds after ordering and
delivered 7 seconds after shipping. -/
theorem add_orders_date_invariant_witness :
    add_orders genDB [genRand] = Option.some genDB2 ∧
      ∃ new : List Order, genDB2.orders = genDB.orders ++ new ∧
        ∀ o ∈ new,
          (∀ d, o.delivered_date = Option.some d →
            ∃ s, o.shipped_date = Option.some s ∧ s ≤ d) ∧
          (∀ s, o.shipped_date = Option.some s → o.order_date ≤ s) :=
  ⟨by decide, add_orders_date_invariant genDB [genRand] genDB2 (by decide)⟩

theorem gen_orders_total (customers : List Customer) (hne : customers ≠ []) :
    ∀ (rs : List OrderRand) (next_id : Nat),
      ∃ os, gen_orders customers next_id rs = Option.some os
  | [], _ => ⟨[], rfl⟩
  | r :: rs, n => by
    obtain ⟨os, hos⟩ := gen_orders_total customers hne rs (n + 1)
    have hi : r.customer_pick % customers.length < customers.length :=
      Nat.mod_lt _ (List.length_pos.mpr hne)
    have hc : choice customers r.customer_pick =
        Option.some (customers.get ⟨r.customer_pick % customers.length, hi⟩) := by
      unfold choice
      exact List.getElem?_eq_getElem hi
    simp only [gen_orders, gen_order, hc, Option.map_some', hos]
    exact ⟨_, rfl⟩

/-- C8: starting from the empty database, `create_random_data` always
succeeds, and afterwards `how_many_customers` reports exactly 100 customers. -/
theorem create_random_data_customer_count (r : SeedRand) :
    (create_random_data emptyDB r).map how_many_customers = Option.some 100 := by
  have hcust : (add_customers emptyDB r.customer_fake).customers.length = 100 := by
    simp [add_customers, emptyDB]
  have hne : (add_customers emptyDB r.customer_fake).customers ≠ [] := by
    intro hnil
    rw [hnil] at hcust
    exact absurd hcust (by simp)
  obtain ⟨os, hos⟩ := gen_orders_total _ hne ((List.range 1000).map r.order_rand)
    ((add_customers emptyDB r.customer_fake).orders.length + 1)
  unfold create_random_data add_orders
  rw [hos]
  simp only [Option.map_some']
  simpa [how_many_customers, add_order_products, add_products] using hcust

/-- C9 counterexample: on a database with one customer and one matching order,
each query function returns `None` to the caller — not its documented result
(the matching-orders list is nonempty and the customer count is 1, yet the
returned value is `PyValue.none` in every case). -/
theorem query_return_none_counterexample :
    (get_orders_by_run runDB 1).1 = PyValue.none ∧
      get_orders_by runDB 1 ≠ [] ∧
      (get_orders_by_run runDB 1).1 ≠ PyValue.orderList (get_orders_by runDB 1) ∧
      how_many_customers runDB = 1 ∧
      (how_many_customers_run runDB).1 ≠ PyValue.int (how_many_customers runDB) ∧
      (get_pending_orders_run runDB).1 ≠ PyValue.orderList (get_pending_orders runDB) := by
  refine ⟨rfl, by decide, ?_, rfl, ?_, ?_⟩
  · intro h
    exact PyValue.noConfusion h
  · intro h
    exact PyValue.noConfusion h
  · intro h
    exact PyValue.noConfusion h

/-- C9 (amended): every query operation is read-only and computes its
documented result, but prints it line by line and returns `None` to the
caller instead of returning the result. -/
theorem query_run_behavior (db : DB) (customer_id : Nat) :
    (get_orders_by_run db customer_id).1 = PyValue.none ∧
    (how_many_customers_run db).1 = PyValue.none ∧
    (get_pending_orders_run db).1 = PyValue.none ∧
    (get_orders_by_run db customer_id).2 =
      "Get Orders by Customer" ::
        (db.orders.filter (fun o => o.customer_id == customer_id)).map
          (fun o => toString o.order_date) ∧
    (how_many_customers_run db).2 = ["How many customers?", toString db.customers.length] ∧
    (get_pending_orders_run db).2.head? = Option.some "Pending Orders" ∧
    (get_pending_orders_run db).2.length =
      1 + (db.orders.filter (fun o => o.shipped_date.isNone)).length := by
  refine ⟨rfl, rfl, rfl, rfl, rfl, rfl, ?_⟩
  simp only [get_pending_orders_run, get_pending_orders, List.length_cons, List.length_map,
    List.length_mergeSort]
  omega

theorem get_cons_eraseIdx_perm : ∀ (l : List α) (i : Nat) (h : i < l.length),
    List.Perm (l.get ⟨i, h⟩ :: l.eraseIdx i) l
  | a :: t, 0, _ => by simp [List.eraseIdx]
  | a :: t, i + 1, h => by
    have h' : i < t.length := by simpa using h
    have ih := get_cons_eraseIdx_perm t i h'
    exact (List.Perm.swap a (t.get ⟨i, h'⟩) (t.eraseIdx i)).trans (ih.cons a)

theorem shuffle_perm : ∀ (l : List α) (r : Nat), List.Perm (shuffle l r) l
  | [], _ => by simp [shuffle]
  | a :: l, r => by
    rw [shuffle]
    exact ((shuffle_perm ((a :: l).eraseIdx (r % (a :: l).length))
        (r / (a :: l).length)).cons _).trans
      (get_cons_eraseIdx_perm (a :: l) (r % (a :: l).length) (Nat.mod_lt _ (Nat.succ_pos _)))
termination_by l _ => l.length
decreasing_by
  simp only [List.length_eraseIdx, List.length_cons]
  split
  · omega
  · rename_i hcontra
    exact absurd (Nat.mod_lt _ (Nat.succ_pos _)) hcontra

theorem sample_length (l : List α) (k r : Nat) (h : k ≤ l.length) :
    (sample l k r).length = k := by
  unfold sample
  rw [List.length_take, (shuffle_perm l r).length_eq]
  exact Nat.min_eq_left h

theorem sample_nodup (l : List α) (k r : Nat) (h : l.Nodup) : (sample l k r).Nodup :=
  (List.take_sublist k (shuffle l r)).nodup ((shuffle_perm l r).nodup_iff.mpr h)

theorem sample_subset (l : List α) (k r : Nat) : ∀ x ∈ sample l k r, x ∈ l :=
  fun _ hx => (shuffle_perm l r).mem_iff.mp (List.mem_of_mem_take hx)

theorem randint_one_three (r : Nat) : 1 ≤ randint 1 3 r ∧ randint 1 3 r ≤ 3 := by
  unfold randint
  omega

theorem find?_id_eq_self (products : List Product)
    (hnd : (products.map Product.id).Nodup) :
    ∀ p ∈ products, products.find? (fun q => q.id == p.id) = Option.some p := by
  induction products with
  | nil => simp
  | cons q t ih =>
    simp only [List.map_cons, List.nodup_cons] at hnd
    intro p hp
    rcases List.mem_cons.mp hp with rfl | hpt
    · simp [List.find?_cons]
    · have hne : (q.id == p.id) = false := by
        simp only [beq_eq_false_iff_ne, ne_eq]
        intro hqp
        exact hnd.1 (hqp ▸ List.mem_map_of_mem Product.id hpt)
      simp only [List.find?_cons, hne]
      exact ih hnd.2 p hpt

theorem filterMap_find?_of_subset (products : List Product)
    (hnd : (products.map Product.id).Nodup) :
    ∀ l : List Product, (∀ p ∈ l, p ∈ products) →
      l.filterMap (fun p => products.find? (fun q => q.id == p.id)) = l
  | [], _ => rfl
  | p :: t, h => by
    rw [List.filterMap_cons, find?_id_eq_self products hnd p (h p (by simp))]
    rw [filterMap_find?_of_subset products hnd t (fun q hq => h q (by simp [hq]))]

theorem filter_link_rows_nil (products : List Product) (rand : Nat → Nat × Nat) (n : Nat) :
    ∀ (orders : List Order) (i : Nat), n ∉ orders.map Order.id →
      (link_rows orders products rand i).filter (fun row => row.order_id == n) = []
  | [], _, _ => rfl
  | o :: rest, i, hn => by
    simp only [List.map_cons, List.mem_cons, not_or] at hn
    simp only [link_rows, List.filter_append]
    rw [filter_link_rows_nil products rand n rest (i + 1) hn.2, List.append_nil]
    rw [List.filter_eq_nil_iff.mpr]
    intro row hrow
    rcases List.mem_map.mp hrow with ⟨p, _, hrp⟩
    rw [← hrp]
    simpa using fun he => hn.1 he.symm

theorem filter_link_rows_of_mem (products : List Product) (rand : Nat → Nat × Nat) :
    ∀ (orders : List Order) (i : Nat) (o : Order),
      (orders.map Order.id).Nodup → o ∈ orders →
      ∃ j, (link_rows orders products rand i).filter (fun row => row.order_id == o.id) =
        (sample products (randint 1 3 (rand j).1) (rand j).2).map
          (fun p => { order_id := o.id, product_id := p.id })
  | [], _, o, _, ho => absurd ho (by simp)
  | o' :: rest, i, o, hnd, ho => by
    simp only [List.map_cons, List.nodup_cons] at hnd
    simp only [link_rows, List.filter_append]
    rcases List.mem_cons.mp ho with rfl | hmem
    · refine ⟨i, ?_⟩
      rw [filter_link_rows_nil products rand o.id rest (i + 1) hnd.1, List.append_nil]
      rw [List.filter_eq_self.mpr]
      intro row hrow
      rcases List.mem_map.mp hrow with ⟨p, _, hrp⟩
      rw [← hrp]
      simp
    · have hne : o'.id ≠ o.id := by
        intro he
        exact hnd.1 (he ▸ List.mem_map_of_mem Order.id hmem)
      obtain ⟨j, hj⟩ := filter_link_rows_of_mem products rand rest (i + 1) o hnd.2 hmem
      refine ⟨j, ?_⟩
      rw [hj]
      have hchunk : ((sample products (randint 1 3 (rand i).1) (rand i).2).map
          (fun p => { order_id := o'.id, product_id := p.id : OrderProduct })).filter
            (fun row => row.order_id == o.id) = [] := by
        rw [List.filter_eq_nil_iff.mpr]
        intro row hrow
        rcases List.mem_map.mp hrow with ⟨p, _, hrp⟩
        rw [← hrp]
        simpa using hne
      rw [hchunk, List.nil_append]

theorem add_order_products_products_of (db : DB) (rand : Nat → Nat × Nat)
    (hassoc : db.order_product = [])
    (hord : (db.orders.map Order.id).Nodup)
    (hprod : (db.products.map Product.id).Nodup)
    (o : Order) (ho : o ∈ db.orders) :
    ∃ j, products_of (add_order_products db rand) o.id =
      sample db.products (randint 1 3 (rand j).1) (rand j).2 := by
  obtain ⟨j, hj⟩ := filter_link_rows_of_mem db.products rand db.orders 0 o hord ho
  refine ⟨j, ?_⟩
  unfold products_of add_order_products
  simp only [hassoc, List.nil_append]
  rw [hj, List.filterMap_map]
  exact filterMap_find?_of_subset db.products hprod _
    (sample_subset db.products (randint 1 3 (rand j).1) (rand j).2)

/-- C6: after `add_order_products`, run on a well-formed database (distinct
order and product ids, at least the 3 products `random.sample` may request,
and no pre-existing associations), every order has between 1 and 3 associated
products and those products are pairwise distinct. -/
theorem add_order_products_assoc_bounds (db : DB) (rand : Nat → Nat × Nat)
    (hassoc : db.order_product = [])
    (hord : (db.orders.map Order.id).Nodup)
    (hprod : (db.products.map Product.id).Nodup)
    (hlen : 3 ≤ db.products.length) :
    ∀ o ∈ db.orders,
      (1 ≤ (products_of (add_order_products db rand) o.id).length ∧
        (products_of (add_order_products db rand) o.id).length ≤ 3) ∧
      (products_of (add_order_products db rand) o.id).Nodup := by
  intro o ho
  obtain ⟨j, hj⟩ := add_order_products_products_of db rand hassoc hord hprod o ho
  rw [hj]
  obtain ⟨hk1, hk3⟩ := randint_one_three (rand j).1
  have hkle : randint 1 3 (rand j).1 ≤ db.products.length := le_trans hk3 hlen
  refine ⟨⟨?_, ?_⟩, ?_⟩
  · rw [sample_length _ _ _ hkle]
    exact hk1
  · rw [sample_length _ _ _ hkle]
    exact hk3
  · exact sample_nodup _ _ _ (List.Nodup.of_map Product.id hprod)

/-- Witness for C6 on a database with one order and three products. -/
theorem add_order_products_assoc_bounds_witness :
    linkDB.order_product = [] ∧ (linkDB.orders.map Order.id).Nodup ∧
      (linkDB.products.map Product.id).Nodup ∧ 3 ≤ linkDB.products.length ∧
      (∀ o ∈ linkDB.orders,
        (1 ≤ (products_of (add_order_products linkDB linkRand) o.id).length ∧
          (products_of (add_order_products linkDB linkRand) o.id).length ≤ 3) ∧
        (products_of (add_order_products linkDB linkRand) o.id).Nodup) :=
  ⟨rfl, by decide, by decide, by decide,
    add_order_products_assoc_bounds linkDB linkRand rfl (by decide) (by decide) (by decide)⟩

/-- C1: the high-spend query text of src/app.py lines 161-166 (which, as
written, is unreachable Python: line 164 opens with `.group_by`, a syntax
error) satisfies the claim's scenario once modelled as the chain reads: a
customer with one order containing products priced 300 and 250 is selected
for amount 500, is not selected for amount 600, and is the only customer
selected for amount 500. -/
theorem get_customers_purchased_scenario :
    aliceC ∈ get_customers_who_have_purchased_x_dollars spendDB 500 ∧
      aliceC ∉ get_customers_who_have_purchased_x_dollars spendDB 600 ∧
      (get_customers_who_have_purchased_x_dollars spendDB 500).map Customer.id = [1] := by
  decide

end App
